import Mathlib

/-!
Verification of the module-cache virtual filesystem of slang-compile-timer
(src/compiler_slang.h), a latency benchmark for the Slang shader compiler.

The development shallowly embeds:

* the reference-counted blob MyRawBlob (compiler_slang.h lines 49-102) as a
  small object-lifecycle state machine (blobStep);
* the caching filesystem SlangCompilerHelper::loadFile (lines 317-422) as a
  pure state-passing function over an explicit state FSState, with the
  external collaborators (the on-disk filesystem read by load_file in
  utilities.h, and the opaque Slang compile / serialize operations) supplied
  as a Backend parameter;
* the orchestration SlangCompilerHelper::compile / makeSession /
  get_spirv_data (lines 148-206).

Reference counts in C++ are uint32_t fields; the blob lifecycle model applies
the mod-2^32 wraparound of the ++ operator exactly as the source does, while
the filesystem heap tracks the abstract (Nat) number of outstanding
references, of which the C++ field is the mod-2^32 image; all properties
proved concern counts far below 2^32.

Side effects that the specification's claims quantify over (raw file reads,
nested module compilations, serializations) are reified as an event list
returned alongside the result, so that "performs no file read" becomes
"the event list of the call is empty".
-/

/-! ## MyRawBlob: the reference-counted owned buffer (lines 49-102) -/

/-- An acquire (addReference) or release (releaseReference) call on a blob. -/
inductive BlobOp
  | acquire
  | release
deriving DecidableEq

/-- Lifecycle state of one MyRawBlob object: live with the current value of
the uint32_t m_refCount field, destroyed (operator delete ran), or fatal
(an assert fired: release at count zero, or any use after destruction). -/
inductive BlobRTState
  | live (refCount : Nat)
  | freed
  | fatal
deriving DecidableEq

/-- 2^32, the modulus of the uint32_t reference-count field. -/
def UINT32_MOD : Nat := 4294967296

/-- One acquire/release step, from MyRawBlob::addReference (line 73:
return plus-plus m_refCount, uint32_t wraparound) and
MyRawBlob::releaseReference (lines 74-83: assert(m_refCount != 0), then
decrement, then delete this when the count reaches zero). Operations on a
destroyed object are fatal (use after free). -/
def blobStep : BlobRTState → BlobOp → BlobRTState
  | .live c, .acquire => .live ((c + 1) % UINT32_MOD)
  | .live c, .release =>
      if c = 0 then .fatal
      else if c = 1 then .freed
      else .live (c - 1)
  | .freed, _ => .fatal
  | .fatal, _ => .fatal

/-- Whether applying op in state s destroys the backing storage:
exactly the release applied at count 1 (lines 77-81). -/
def isFreeEvent (s : BlobRTState) (op : BlobOp) : Bool :=
  match s, op with
  | .live c, .release => c == 1
  | _, _ => false

/-- Number of destructions of the backing storage along a run. -/
def countFrees : BlobRTState → List BlobOp → Nat
  | _, [] => 0
  | s, op :: ops => (if isFreeEvent s op then 1 else 0) + countFrees (blobStep s op) ops

/-! ## The caching filesystem state and its external collaborators -/

/-- A heap-allocated blob: its byte contents and the abstract number of
outstanding references to it. -/
structure BlobInfo where
  bytes : String
  refCount : Nat
deriving DecidableEq

/-- Association-list lookup: first binding wins, as for the single binding
per key kept by std::unordered_map. -/
def alLookup {κ α : Type} [DecidableEq κ] : List (κ × α) → κ → Option α
  | [], _ => none
  | (k, v) :: t, q => if k = q then some v else alLookup t q

/-- Mutable state of one SlangCompilerHelper instance (lines 425-441):
the active search path, the module cache m_moduleCache (a map from
normalized path to a blob, or to the nullptr sentinel for a file that
failed to load, modeled as Option Nat: none is the sentinel), the heap of
live blobs keyed by identifier, a fresh-identifier counter, and the held
output blob m_spirv (none models the null ComPtr). -/
structure FSState where
  currentSearchPath : String
  moduleCache : List (String × Option Nat)
  heap : List (Nat × BlobInfo)
  nextId : Nat
  spirv : Option String
deriving DecidableEq

/-- The external collaborators of the helper, per spec section 1 all opaque:
disk is utilities.h load_file (none on read failure); moduleCompileOk tells
whether compileModule's loadModuleFromSourceString produced no diagnostics
for a given (path, source); serializeModule is IModule::serialize (none on
failure); topImports lists the paths the Slang session requests through the
loadFile callback while loading the top-level module; topCompileOk and
getTargetCode describe the top-level module load and target-code
extraction. -/
structure Backend where
  disk : String → Option String
  moduleCompileOk : String → String → Bool
  serializeModule : String → String → Option String
  topImports : String → String → List String
  topCompileOk : String → String → Bool
  getTargetCode : String → String → Option String

/-- Result of loadFile: SLANG_OK with the returned blob, SLANG_E_NOT_FOUND,
or SLANG_FAIL. -/
inductive LoadResult
  | ok (blobId : Nat)
  | notFound
  | fail
deriving DecidableEq

/-- Observable side effects of one loadFile call: a raw storage read via
load_file, a nested module compilation via compileModule, or a module
serialization via IModule::serialize. -/
inductive Event
  | diskRead (path : String)
  | nestedCompile (path : String)
  | serialization
deriving DecidableEq

/-- True when the string starts with the path separator, i.e. is an
absolute POSIX path. -/
def isAbsolutePath (p : String) : Bool := p.data.head? = some '/'

/-- The path-append of line 320, fs::path(m_currentSearchPath) / fs::path(path):
an absolute right operand replaces the left; otherwise the two are joined
with a separator. -/
def normalizePath (root p : String) : String :=
  if isAbsolutePath p then p
  else if root = "" then p
  else root ++ "/" ++ p

/-- std::string::ends_with (line 343). -/
def strEndsWith (s suffix : String) : Bool := List.isSuffixOf suffix.data s.data

/-- substr(0, size() - n) (line 345). -/
def strDropRight (s : String) (n : Nat) : String :=
  String.mk (s.data.take (s.data.length - n))

/-- Bump the reference count of blob i (blob->addRef(), line 337). -/
def heapAddRef : List (Nat × BlobInfo) → Nat → List (Nat × BlobInfo)
  | [], _ => []
  | (j, info) :: t, i =>
      if j = i then (j, ⟨info.bytes, info.refCount + 1⟩) :: t
      else (j, info) :: heapAddRef t i

/-- Record the nullptr sentinel for a path whose load failed
(m_moduleCache[path_string] = nullptr, lines 351 and 410). -/
def negCache (st : FSState) (key : String) : FSState :=
  { st with moduleCache := (key, none) :: st.moduleCache }

/-- Allocate a fresh blob holding bytes and insert it into the cache under
key. The new blob carries two references: the one held by the cache map
entry and the one about to be handed to the caller (lines 392-398 for the
serialized module: one reference from serialize plus one taken by the
cache's ComPtr; lines 414-419 for a plain file: one from MyRawBlob::create
held by the map plus the explicit blob->addRef()). -/
def allocBlob (st : FSState) (key bytes : String) : FSState :=
  { st with
      moduleCache := (key, some st.nextId) :: st.moduleCache,
      heap := (st.nextId, ⟨bytes, 2⟩) :: st.heap,
      nextId := st.nextId + 1 }

/-- The module branch of loadFile (lines 343-400): key is the normalized
path, which ends with the reserved suffix. Strip the 7-character suffix,
read the underlying source from storage; on failure record the sentinel and
return SLANG_E_NOT_FOUND; otherwise run a nested compile and serialization,
either of whose failures returns SLANG_FAIL without touching the cache;
on success cache and return the serialized module. -/
def loadFileModule (B : Backend) (st : FSState) (key : String) :
    LoadResult × FSState × List Event :=
  match B.disk (strDropRight key 7) with
  | none => (.notFound, negCache st key, [.diskRead (strDropRight key 7)])
  | some contents =>
      if B.moduleCompileOk (strDropRight key 7) contents then
        match B.serializeModule (strDropRight key 7) contents with
        | none =>
            (.fail, st,
             [.diskRead (strDropRight key 7), .nestedCompile (strDropRight key 7),
              .serialization])
        | some bytes =>
            (.ok st.nextId, allocBlob st key bytes,
             [.diskRead (strDropRight key 7), .nestedCompile (strDropRight key 7),
              .serialization])
      else (.fail, st, [.diskRead (strDropRight key 7), .nestedCompile (strDropRight key 7)])

/-- The plain-file branch of loadFile (lines 402-421): note that the source
reads load_file(path) with the caller's raw path (line 405), not the
normalized key, while the outcome is recorded under the normalized key. -/
def loadFilePlain (B : Backend) (st : FSState) (key p : String) :
    LoadResult × FSState × List Event :=
  match B.disk p with
  | none => (.notFound, negCache st key, [.diskRead p])
  | some contents =>
      (.ok st.nextId, allocBlob st key contents, [.diskRead p])

/-- SlangCompilerHelper::loadFile (lines 317-422). Normalize the request
against the current search path; serve a cached outcome without any side
effect (lines 321-340: the nullptr sentinel yields SLANG_E_NOT_FOUND, a
cached blob is returned after blob->addRef()); otherwise dispatch on the
"-module" suffix of the normalized path (line 343). The nested session's
own recursive callbacks are outside the model: compileModule is treated as
the opaque external compile step, per spec section 1. -/
def loadFile (B : Backend) (st : FSState) (p : String) :
    LoadResult × FSState × List Event :=
  match alLookup st.moduleCache (normalizePath st.currentSearchPath p) with
  | some none => (.notFound, st, [])
  | some (some i) => (.ok i, { st with heap := heapAddRef st.heap i }, [])
  | none =>
      if strEndsWith (normalizePath st.currentSearchPath p) "-module" then
        loadFileModule B st (normalizePath st.currentSearchPath p)
      else loadFilePlain B st (normalizePath st.currentSearchPath p) p

/-! ## Session orchestration (lines 148-206) -/

/-- The observable configuration of a session created by makeSession
(lines 148-163): desc.fileSystem = this (line 155) wires the session to the
same helper instance, and desc.searchPaths points at the helper's current
search path (lines 157-158). -/
structure Session where
  usesSelfFileSystem : Bool
  searchPath : String
deriving DecidableEq

/-- makeSession (lines 148-163). -/
def makeSession (st : FSState) : Session :=
  { usesSelfFileSystem := true, searchPath := st.currentSearchPath }

/-- fs::path(p).parent_path().string() (line 183) for POSIX-style paths
without a trailing separator: everything before the last separator, with
the root directory kept. -/
def parentPath (p : String) : String :=
  match (p.data.reverse.dropWhile (fun c => c ≠ '/')) with
  | [] => ""
  | [_] => "/"
  | _ :: rest => String.mk rest.reverse

/-- The loadFile callbacks the Slang session performs while loading the
top-level module, folded over the state. -/
def loadMany (B : Backend) (st : FSState) : List String → FSState
  | [] => st
  | p :: ps => loadMany B (loadFile B st p).2.1 ps

/-- SlangCompilerHelper::compile (lines 181-203): set the search path to
the parent directory of the main shader path (lines 183-184), create a
session wired to this same instance (line 186), load the top-level module
(which calls back into loadFile for its imports); on diagnostics return
false with m_spirv untouched (lines 188-191); only then clear m_spirv
(line 193) and extract the target code, returning false on extraction
failure (lines 194-200). -/
def compile (B : Backend) (st : FSState) (mainShaderPath source : String) :
    Bool × FSState × Session :=
  let st1 : FSState := { st with currentSearchPath := parentPath mainShaderPath }
  let session := makeSession st1
  let st2 := loadMany B st1 (B.topImports mainShaderPath source)
  if B.topCompileOk mainShaderPath source then
    match B.getTargetCode mainShaderPath source with
    | none => (false, { st2 with spirv := none }, session)
    | some bytes => (true, { st2 with spirv := some bytes }, session)
  else (false, st2, session)

/-- get_spirv_data / get_spirv_size (lines 205-206): reads the held output
blob; none models the null ComPtr dereference, i.e. no valid output. -/
def get_spirv_data (st : FSState) : Option String := st.spirv

/-- Number of bytes readable through get_spirv_size, when the output blob
is valid. -/
def get_spirv_size (st : FSState) : Option Nat := st.spirv.map String.length

/-! ## Traces of public operations on one helper instance -/

/-- A public operation on the helper: a loadFile callback from the backend,
or a top-level compile from the harness. -/
inductive Op
  | load (path : String)
  | doCompile (mainPath source : String)

/-- State transition of one operation. -/
def stepOp (B : Backend) (st : FSState) : Op → FSState
  | .load p => (loadFile B st p).2.1
  | .doCompile m s => (compile B st m s).2.1

/-- Run a list of operations. -/
def runOps (B : Backend) (st : FSState) : List Op → FSState
  | [] => st
  | op :: ops => runOps B (stepOp B st op) ops

/-- N consecutive loadFile calls on the same path, collecting all results
and all events. -/
def loadFileN (B : Backend) (st : FSState) (p : String) :
    Nat → List LoadResult × FSState × List Event
  | 0 => ([], st, [])
  | n + 1 =>
      let r := loadFile B st p
      let rest := loadFileN B r.2.1 p n
      (r.1 :: rest.1, rest.2.1, r.2.2 ++ rest.2.2)

/-- Number of storage reads (load_file calls) in an event list. -/
def countReads (evs : List Event) : Nat :=
  (evs.filter fun e => match e with | .diskRead _ => true | _ => false).length

/-- Bytes of blob i in state st, when it is live. -/
def blobBytes (st : FSState) (i : Nat) : Option String :=
  (alLookup st.heap i).map BlobInfo.bytes

/-- The storage path whose existence decides a fresh request for p: the
suffix-stripped normalized path for a module request (line 346), the raw
request path for a plain file (line 405). -/
def underlyingReadPath (root p : String) : String :=
  if strEndsWith (normalizePath root p) "-module" then
    strDropRight (normalizePath root p) 7
  else p

/-- Whether a cache entry pointing at a blob is backed by a live heap blob
holding at least the cache's own reference. -/
def entryRefOk (heap : List (Nat × BlobInfo)) : Option Nat → Bool
  | none => true
  | some i =>
      match alLookup heap i with
      | none => false
      | some info => info.refCount != 0

/-- State invariant: every cached blob is live with at least one reference
(the cache's own), and every heap identifier is below the fresh counter. -/
def invB (st : FSState) : Bool :=
  st.moduleCache.all (fun kv => entryRefOk st.heap kv.2) &&
  st.heap.all (fun e => decide (e.1 < st.nextId))

/-- The helper's state at construction: empty cache, no held output
(lines 429-440 defaults; the search path is set by the first compile). -/
def initState : FSState :=
  { currentSearchPath := "", moduleCache := [], heap := [], nextId := 0, spirv := none }
/-! ## Basic lemmas about lookups and the heap -/

theorem alLookup_cons_self {κ α : Type} [DecidableEq κ] (k : κ) (v : α) (t : List (κ × α)) :
    alLookup ((k, v) :: t) k = some v := by
  simp [alLookup]

theorem alLookup_cons_ne {κ α : Type} [DecidableEq κ] {k q : κ} (v : α) (t : List (κ × α))
    (h : k ≠ q) : alLookup ((k, v) :: t) q = alLookup t q := by
  simp [alLookup, h]

theorem alLookup_heapAddRef (h : List (Nat × BlobInfo)) (i j : Nat) :
    alLookup (heapAddRef h i) j =
      if j = i then (alLookup h j).map (fun info => ⟨info.bytes, info.refCount + 1⟩)
      else alLookup h j := by
  induction h with
  | nil => by_cases hji : j = i <;> simp [heapAddRef, alLookup, hji]
  | cons e t ih =>
      obtain ⟨k, info⟩ := e
      have hstep : heapAddRef ((k, info) :: t) i
          = if k = i then (k, ⟨info.bytes, info.refCount + 1⟩) :: t
            else (k, info) :: heapAddRef t i := rfl
      rw [hstep]
      by_cases hki : k = i
      · rw [if_pos hki]
        subst hki
        by_cases hjk : j = k
        · rw [hjk, alLookup_cons_self, if_pos rfl, alLookup_cons_self]
          rfl
        · rw [alLookup_cons_ne _ _ (Ne.symm hjk), if_neg hjk,
              alLookup_cons_ne _ _ (Ne.symm hjk)]
      · rw [if_neg hki]
        by_cases hjk : j = k
        · rw [hjk, alLookup_cons_self, if_neg hki, alLookup_cons_self]
        · rw [alLookup_cons_ne _ _ (Ne.symm hjk), ih,
              alLookup_cons_ne _ _ (Ne.symm hjk)]

theorem heapAddRef_all_fst (h : List (Nat × BlobInfo)) (i : Nat) (q : Nat → Bool) :
    (heapAddRef h i).all (fun e => q e.1) = h.all (fun e => q e.1) := by
  induction h with
  | nil => rfl
  | cons e t ih =>
      obtain ⟨k, info⟩ := e
      by_cases hki : k = i <;> simp [heapAddRef, hki, ih]

theorem entryRefOk_heapAddRef (h : List (Nat × BlobInfo)) (i : Nat) (e : Option Nat)
    (ho : entryRefOk h e = true) : entryRefOk (heapAddRef h i) e = true := by
  cases e with
  | none => rfl
  | some j =>
      simp only [entryRefOk] at ho ⊢
      rw [alLookup_heapAddRef]
      by_cases hji : j = i
      · subst hji
        cases hl : alLookup h j with
        | none => rw [hl] at ho; simp at ho
        | some info => simp [hl]
      · rw [if_neg hji]; exact ho

/-! ## Branch equations for loadFile -/

theorem loadFile_hit_sentinel (B : Backend) (st : FSState) (p : String)
    (hl : alLookup st.moduleCache (normalizePath st.currentSearchPath p) = some none) :
    loadFile B st p = (.notFound, st, []) := by
  unfold loadFile; rw [hl]

theorem loadFile_hit_blob (B : Backend) (st : FSState) (p : String) (i : Nat)
    (hl : alLookup st.moduleCache (normalizePath st.currentSearchPath p) = some (some i)) :
    loadFile B st p = (.ok i, { st with heap := heapAddRef st.heap i }, []) := by
  unfold loadFile; rw [hl]

theorem loadFile_miss_module (B : Backend) (st : FSState) (p : String)
    (hl : alLookup st.moduleCache (normalizePath st.currentSearchPath p) = none)
    (hm : strEndsWith (normalizePath st.currentSearchPath p) "-module" = true) :
    loadFile B st p = loadFileModule B st (normalizePath st.currentSearchPath p) := by
  unfold loadFile; rw [hl]; simp [hm]

theorem loadFile_miss_plain (B : Backend) (st : FSState) (p : String)
    (hl : alLookup st.moduleCache (normalizePath st.currentSearchPath p) = none)
    (hm : strEndsWith (normalizePath st.currentSearchPath p) "-module" = false) :
    loadFile B st p = loadFilePlain B st (normalizePath st.currentSearchPath p) p := by
  unfold loadFile; rw [hl]; simp [hm]

theorem loadFileModule_nofile (B : Backend) (st : FSState) (key : String)
    (hd : B.disk (strDropRight key 7) = none) :
    loadFileModule B st key
      = (.notFound, negCache st key, [.diskRead (strDropRight key 7)]) := by
  unfold loadFileModule; rw [hd]

theorem loadFileModule_compileFail (B : Backend) (st : FSState) (key contents : String)
    (hd : B.disk (strDropRight key 7) = some contents)
    (hc : B.moduleCompileOk (strDropRight key 7) contents = false) :
    loadFileModule B st key
      = (.fail, st, [.diskRead (strDropRight key 7), .nestedCompile (strDropRight key 7)]) := by
  unfold loadFileModule; rw [hd]; simp [hc]

theorem loadFileModule_serializeFail (B : Backend) (st : FSState) (key contents : String)
    (hd : B.disk (strDropRight key 7) = some contents)
    (hc : B.moduleCompileOk (strDropRight key 7) contents = true)
    (hs : B.serializeModule (strDropRight key 7) contents = none) :
    loadFileModule B st key
      = (.fail, st,
         [.diskRead (strDropRight key 7), .nestedCompile (strDropRight key 7),
          .serialization]) := by
  unfold loadFileModule; rw [hd]; simp [hc, hs]

theorem loadFileModule_success (B : Backend) (st : FSState) (key contents bytes : String)
    (hd : B.disk (strDropRight key 7) = some contents)
    (hc : B.moduleCompileOk (strDropRight key 7) contents = true)
    (hs : B.serializeModule (strDropRight key 7) contents = some bytes) :
    loadFileModule B st key
      = (.ok st.nextId, allocBlob st key bytes,
         [.diskRead (strDropRight key 7), .nestedCompile (strDropRight key 7),
          .serialization]) := by
  unfold loadFileModule; rw [hd]; simp [hc, hs]

theorem loadFilePlain_nofile (B : Backend) (st : FSState) (key p : String)
    (hd : B.disk p = none) :
    loadFilePlain B st key p = (.notFound, negCache st key, [.diskRead p]) := by
  unfold loadFilePlain; rw [hd]

theorem loadFilePlain_success (B : Backend) (st : FSState) (key p contents : String)
    (hd : B.disk p = some contents) :
    loadFilePlain B st key p
      = (.ok st.nextId, allocBlob st key contents, [.diskRead p]) := by
  unfold loadFilePlain; rw [hd]

/-! ## The four state shapes a loadFile call can produce -/

theorem loadFile_shape (B : Backend) (st : FSState) (p : String) :
    (loadFile B st p).2.1 = st
    ∨ (∃ i, alLookup st.moduleCache (normalizePath st.currentSearchPath p) = some (some i)
        ∧ (loadFile B st p).2.1 = { st with heap := heapAddRef st.heap i })
    ∨ (alLookup st.moduleCache (normalizePath st.currentSearchPath p) = none
        ∧ (loadFile B st p).2.1 = negCache st (normalizePath st.currentSearchPath p))
    ∨ (alLookup st.moduleCache (normalizePath st.currentSearchPath p) = none
        ∧ ∃ bytes, (loadFile B st p).2.1
            = allocBlob st (normalizePath st.currentSearchPath p) bytes) := by
  cases hl : alLookup st.moduleCache (normalizePath st.currentSearchPath p) with
  | some e =>
      cases e with
      | none => left; rw [loadFile_hit_sentinel B st p hl]
      | some i => right; left; exact ⟨i, rfl, by rw [loadFile_hit_blob B st p i hl]⟩
  | none =>
      cases hm : strEndsWith (normalizePath st.currentSearchPath p) "-module" with
      | true =>
          rw [loadFile_miss_module B st p hl hm]
          cases hd : B.disk (strDropRight (normalizePath st.currentSearchPath p) 7) with
          | none =>
              right; right; left
              exact ⟨rfl, by rw [loadFileModule_nofile B st _ hd]⟩
          | some contents =>
              cases hc : B.moduleCompileOk
                  (strDropRight (normalizePath st.currentSearchPath p) 7) contents with
              | false => left; rw [loadFileModule_compileFail B st _ contents hd hc]
              | true =>
                  cases hs : B.serializeModule
                      (strDropRight (normalizePath st.currentSearchPath p) 7) contents with
                  | none => left; rw [loadFileModule_serializeFail B st _ contents hd hc hs]
                  | some bytes =>
                      right; right; right
                      exact ⟨rfl, bytes,
                        by rw [loadFileModule_success B st _ contents bytes hd hc hs]⟩
      | false =>
          rw [loadFile_miss_plain B st p hl hm]
          cases hd : B.disk p with
          | none =>
              right; right; left
              exact ⟨rfl, by rw [loadFilePlain_nofile B st _ p hd]⟩
          | some contents =>
              right; right; right
              exact ⟨rfl, contents, by rw [loadFilePlain_success B st _ p contents hd]⟩

/-! ## The state invariant as a proposition -/

/-- The invariant, in propositional form: every cached blob identifier is
live in the heap with a nonzero reference count, and all heap identifiers
are below the fresh counter. -/
def InvP (st : FSState) : Prop :=
  (∀ kv ∈ st.moduleCache, entryRefOk st.heap kv.2 = true) ∧ ∀ e ∈ st.heap, e.1 < st.nextId

theorem invB_iff (st : FSState) : invB st = true ↔ InvP st := by
  simp [invB, InvP, List.all_eq_true]

theorem alLookup_some_mem {κ α : Type} [DecidableEq κ] (l : List (κ × α)) (q : κ) (v : α)
    (h : alLookup l q = some v) : (q, v) ∈ l := by
  induction l with
  | nil => cases h
  | cons e t ih =>
      obtain ⟨k, w⟩ := e
      by_cases hk : k = q
      · subst hk
        rw [alLookup_cons_self] at h
        cases h
        exact List.mem_cons_self _ _
      · rw [alLookup_cons_ne _ _ hk] at h
        exact List.mem_cons_of_mem _ (ih h)

theorem heapAddRef_mem_fst (h : List (Nat × BlobInfo)) (i : Nat) (e : Nat × BlobInfo)
    (he : e ∈ heapAddRef h i) : ∃ e0 ∈ h, e0.1 = e.1 := by
  induction h with
  | nil => cases he
  | cons hd t ih =>
      obtain ⟨k, v⟩ := hd
      have hstep : heapAddRef ((k, v) :: t) i
          = if k = i then (k, ⟨v.bytes, v.refCount + 1⟩) :: t
            else (k, v) :: heapAddRef t i := rfl
      rw [hstep] at he
      by_cases hki : k = i
      · rw [if_pos hki] at he
        rcases List.mem_cons.mp he with rfl | hm
        · exact ⟨(k, v), List.mem_cons_self _ _, rfl⟩
        · exact ⟨e, List.mem_cons_of_mem _ hm, rfl⟩
      · rw [if_neg hki] at he
        rcases List.mem_cons.mp he with rfl | hm
        · exact ⟨(k, v), List.mem_cons_self _ _, rfl⟩
        · obtain ⟨e0, he0, hfst⟩ := ih hm
          exact ⟨e0, List.mem_cons_of_mem _ he0, hfst⟩

theorem entryRefOk_extend (heap : List (Nat × BlobInfo)) (n : Nat) (info0 : BlobInfo)
    (e : Option Nat) (hbound : ∀ x ∈ heap, x.1 < n)
    (ho : entryRefOk heap e = true) : entryRefOk ((n, info0) :: heap) e = true := by
  cases e with
  | none => rfl
  | some j =>
      simp only [entryRefOk] at ho ⊢
      cases hl : alLookup heap j with
      | none => rw [hl] at ho; simp at ho
      | some info =>
          have hj : j < n := hbound (j, info) (alLookup_some_mem _ _ _ hl)
          rw [alLookup_cons_ne _ _ (Ne.symm (Nat.ne_of_lt hj)), hl]
          rw [hl] at ho
          exact ho

theorem InvP_loadFile (B : Backend) (st : FSState) (p : String) (h : InvP st) :
    InvP (loadFile B st p).2.1 := by
  obtain ⟨h1, h2⟩ := h
  rcases loadFile_shape B st p with hs | ⟨i, hl, hs⟩ | ⟨hl, hs⟩ | ⟨hl, bytes, hs⟩ <;> rw [hs]
  · exact ⟨h1, h2⟩
  · constructor
    · intro kv hkv
      exact entryRefOk_heapAddRef _ _ _ (h1 kv hkv)
    · intro e he
      obtain ⟨e0, he0, hfst⟩ := heapAddRef_mem_fst st.heap i e he
      exact hfst ▸ h2 e0 he0
  · constructor
    · intro kv hkv
      rcases List.mem_cons.mp hkv with rfl | hm
      · rfl
      · exact h1 kv hm
    · exact h2
  · constructor
    · intro kv hkv
      rcases List.mem_cons.mp hkv with rfl | hm
      · simp [allocBlob, entryRefOk, alLookup_cons_self]
      · exact entryRefOk_extend st.heap st.nextId ⟨bytes, 2⟩ kv.2 h2 (h1 kv hm)
    · intro e he
      rcases List.mem_cons.mp he with rfl | hm
      · exact Nat.lt_succ_self _
      · exact Nat.lt_succ_of_lt (h2 e hm)

/-! ## Frame properties of one loadFile call -/

theorem loadFile_root_eq (B : Backend) (st : FSState) (p : String) :
    (loadFile B st p).2.1.currentSearchPath = st.currentSearchPath := by
  rcases loadFile_shape B st p with hs | ⟨i, _, hs⟩ | ⟨_, hs⟩ | ⟨_, bytes, hs⟩ <;>
    rw [hs] <;> rfl

theorem loadFile_spirv_eq (B : Backend) (st : FSState) (p : String) :
    (loadFile B st p).2.1.spirv = st.spirv := by
  rcases loadFile_shape B st p with hs | ⟨i, _, hs⟩ | ⟨_, hs⟩ | ⟨_, bytes, hs⟩ <;>
    rw [hs] <;> rfl

theorem loadFile_cache_mono (B : Backend) (st : FSState) (p k : String) (v : Option Nat)
    (h : alLookup st.moduleCache k = some v) :
    alLookup (loadFile B st p).2.1.moduleCache k = some v := by
  rcases loadFile_shape B st p with hs | ⟨i, hl, hs⟩ | ⟨hl, hs⟩ | ⟨hl, bytes, hs⟩ <;> rw [hs]
  · exact h
  · exact h
  · have hk : normalizePath st.currentSearchPath p ≠ k := by
      intro hh; rw [hh, h] at hl; cases hl
    exact (alLookup_cons_ne _ _ hk).trans h
  · have hk : normalizePath st.currentSearchPath p ≠ k := by
      intro hh; rw [hh, h] at hl; cases hl
    exact (alLookup_cons_ne _ _ hk).trans h

theorem loadFile_blobBytes_mono (B : Backend) (st : FSState) (p : String) (i : Nat)
    (s : String) (hinv : InvP st) (h : blobBytes st i = some s) :
    blobBytes (loadFile B st p).2.1 i = some s := by
  rcases loadFile_shape B st p with hs | ⟨i2, hl, hs⟩ | ⟨hl, hs⟩ | ⟨hl, bytes, hs⟩ <;> rw [hs]
  · exact h
  · show (alLookup (heapAddRef st.heap i2) i).map BlobInfo.bytes = some s
    rw [alLookup_heapAddRef]
    unfold blobBytes at h
    by_cases hii : i = i2
    · rw [if_pos hii, Option.map_map]
      have hcomp : BlobInfo.bytes ∘ (fun info => (⟨info.bytes, info.refCount + 1⟩ : BlobInfo))
          = BlobInfo.bytes := rfl
      rw [hcomp]
      exact h
    · rw [if_neg hii]
      exact h
  · exact h
  · show (alLookup ((st.nextId, ⟨bytes, 2⟩) :: st.heap) i).map BlobInfo.bytes = some s
    unfold blobBytes at h
    cases hl2 : alLookup st.heap i with
    | none => rw [hl2] at h; cases h
    | some info =>
        have hi : i < st.nextId := hinv.2 (i, info) (alLookup_some_mem _ _ _ hl2)
        rw [alLookup_cons_ne _ _ (Ne.symm (Nat.ne_of_lt hi)), hl2]
        rw [hl2] at h
        exact h

/-! ## Frame properties of compile and of operation traces -/

theorem loadMany_InvP (B : Backend) (ps : List String) :
    ∀ st : FSState, InvP st → InvP (loadMany B st ps) := by
  induction ps with
  | nil => intro st h; exact h
  | cons p ps ih => intro st h; exact ih _ (InvP_loadFile B st p h)

theorem loadMany_cache_mono (B : Backend) (ps : List String) :
    ∀ (st : FSState) (k : String) (v : Option Nat), alLookup st.moduleCache k = some v →
      alLookup (loadMany B st ps).moduleCache k = some v := by
  induction ps with
  | nil => intro st k v h; exact h
  | cons p ps ih => intro st k v h; exact ih _ k v (loadFile_cache_mono B st p k v h)

theorem loadMany_root_eq (B : Backend) (ps : List String) :
    ∀ st : FSState, (loadMany B st ps).currentSearchPath = st.currentSearchPath := by
  induction ps with
  | nil => intro st; rfl
  | cons p ps ih => intro st; rw [loadMany, ih, loadFile_root_eq]

theorem loadMany_spirv_eq (B : Backend) (ps : List String) :
    ∀ st : FSState, (loadMany B st ps).spirv = st.spirv := by
  induction ps with
  | nil => intro st; rfl
  | cons p ps ih => intro st; rw [loadMany, ih, loadFile_spirv_eq]

theorem loadMany_blobBytes_mono (B : Backend) (ps : List String) :
    ∀ (st : FSState) (i : Nat) (s : String), InvP st → blobBytes st i = some s →
      blobBytes (loadMany B st ps) i = some s := by
  induction ps with
  | nil => intro st i s _ h; exact h
  | cons p ps ih =>
      intro st i s hinv h
      exact ih _ i s (InvP_loadFile B st p hinv) (loadFile_blobBytes_mono B st p i s hinv h)

theorem compile_shape (B : Backend) (st : FSState) (main src : String) :
    (compile B st main src).2.1
        = loadMany B { st with currentSearchPath := parentPath main } (B.topImports main src)
    ∨ (compile B st main src).2.1
        = { loadMany B { st with currentSearchPath := parentPath main }
              (B.topImports main src) with spirv := none }
    ∨ ∃ bytes, (compile B st main src).2.1
        = { loadMany B { st with currentSearchPath := parentPath main }
              (B.topImports main src) with spirv := some bytes } := by
  unfold compile
  cases hok : B.topCompileOk main src with
  | false => simp [hok]
  | true =>
      cases hgt : B.getTargetCode main src with
      | none => simp [hok, hgt]
      | some bytes => simp [hok, hgt]

theorem compile_root_eq (B : Backend) (st : FSState) (main src : String) :
    (compile B st main src).2.1.currentSearchPath = parentPath main := by
  rcases compile_shape B st main src with hs | hs | ⟨bytes, hs⟩ <;> rw [hs] <;>
    simp [loadMany_root_eq]

theorem compile_cache_mono (B : Backend) (st : FSState) (main src k : String)
    (v : Option Nat) (h : alLookup st.moduleCache k = some v) :
    alLookup (compile B st main src).2.1.moduleCache k = some v := by
  have hmid : alLookup (loadMany B { st with currentSearchPath := parentPath main }
      (B.topImports main src)).moduleCache k = some v :=
    loadMany_cache_mono B _ _ k v h
  rcases compile_shape B st main src with hs | hs | ⟨bytes, hs⟩ <;> rw [hs] <;> exact hmid

theorem compile_InvP (B : Backend) (st : FSState) (main src : String) (h : InvP st) :
    InvP (compile B st main src).2.1 := by
  have hmid : InvP (loadMany B { st with currentSearchPath := parentPath main }
      (B.topImports main src)) := loadMany_InvP B _ _ h
  rcases compile_shape B st main src with hs | hs | ⟨bytes, hs⟩ <;> rw [hs] <;> exact hmid

theorem compile_blobBytes_mono (B : Backend) (st : FSState) (main src : String) (i : Nat)
    (s : String) (hinv : InvP st) (h : blobBytes st i = some s) :
    blobBytes (compile B st main src).2.1 i = some s := by
  have hmid : blobBytes (loadMany B { st with currentSearchPath := parentPath main }
      (B.topImports main src)) i = some s := loadMany_blobBytes_mono B _ _ i s hinv h
  rcases compile_shape B st main src with hs | hs | ⟨bytes, hs⟩ <;> rw [hs] <;> exact hmid

theorem stepOp_cache_mono (B : Backend) (st : FSState) (op : Op) (k : String)
    (v : Option Nat) (h : alLookup st.moduleCache k = some v) :
    alLookup (stepOp B st op).moduleCache k = some v := by
  cases op with
  | load p => exact loadFile_cache_mono B st p k v h
  | doCompile m s => exact compile_cache_mono B st m s k v h

theorem stepOp_InvP (B : Backend) (st : FSState) (op : Op) (h : InvP st) :
    InvP (stepOp B st op) := by
  cases op with
  | load p => exact InvP_loadFile B st p h
  | doCompile m s => exact compile_InvP B st m s h

theorem stepOp_blobBytes_mono (B : Backend) (st : FSState) (op : Op) (i : Nat) (s : String)
    (hinv : InvP st) (h : blobBytes st i = some s) :
    blobBytes (stepOp B st op) i = some s := by
  cases op with
  | load p => exact loadFile_blobBytes_mono B st p i s hinv h
  | doCompile m src => exact compile_blobBytes_mono B st m src i s hinv h

theorem runOps_cache_mono (B : Backend) (ops : List Op) :
    ∀ (st : FSState) (k : String) (v : Option Nat), alLookup st.moduleCache k = some v →
      alLookup (runOps B st ops).moduleCache k = some v := by
  induction ops with
  | nil => intro st k v h; exact h
  | cons op ops ih => intro st k v h; exact ih _ k v (stepOp_cache_mono B st op k v h)

theorem runOps_InvP (B : Backend) (ops : List Op) :
    ∀ st : FSState, InvP st → InvP (runOps B st ops) := by
  induction ops with
  | nil => intro st h; exact h
  | cons op ops ih => intro st h; exact ih _ (stepOp_InvP B st op h)

theorem runOps_blobBytes_mono (B : Backend) (ops : List Op) :
    ∀ (st : FSState) (i : Nat) (s : String), InvP st → blobBytes st i = some s →
      blobBytes (runOps B st ops) i = some s := by
  induction ops with
  | nil => intro st i s _ h; exact h
  | cons op ops ih =>
      intro st i s hinv h
      exact ih _ i s (stepOp_InvP B st op hinv) (stepOp_blobBytes_mono B st op i s hinv h)

/-! ## Facts about a successful loadFile call -/

theorem loadFile_ok_cached (B : Backend) (st : FSState) (p : String) (b : Nat)
    (h : (loadFile B st p).1 = .ok b) :
    alLookup (loadFile B st p).2.1.moduleCache (normalizePath st.currentSearchPath p)
      = some (some b) := by
  cases hl : alLookup st.moduleCache (normalizePath st.currentSearchPath p) with
  | some e =>
      cases e with
      | none => rw [loadFile_hit_sentinel B st p hl] at h; cases h
      | some i =>
          rw [loadFile_hit_blob B st p i hl] at h ⊢
          cases h
          exact hl
  | none =>
      cases hm : strEndsWith (normalizePath st.currentSearchPath p) "-module" with
      | true =>
          rw [loadFile_miss_module B st p hl hm] at h ⊢
          cases hd : B.disk (strDropRight (normalizePath st.currentSearchPath p) 7) with
          | none => rw [loadFileModule_nofile B st _ hd] at h; cases h
          | some contents =>
              cases hc : B.moduleCompileOk
                  (strDropRight (normalizePath st.currentSearchPath p) 7) contents with
              | false => rw [loadFileModule_compileFail B st _ contents hd hc] at h; cases h
              | true =>
                  cases hs : B.serializeModule
                      (strDropRight (normalizePath st.currentSearchPath p) 7) contents with
                  | none =>
                      rw [loadFileModule_serializeFail B st _ contents hd hc hs] at h
                      cases h
                  | some bytes =>
                      rw [loadFileModule_success B st _ contents bytes hd hc hs] at h ⊢
                      cases h
                      exact alLookup_cons_self _ _ _
      | false =>
          rw [loadFile_miss_plain B st p hl hm] at h ⊢
          cases hd : B.disk p with
          | none => rw [loadFilePlain_nofile B st _ p hd] at h; cases h
          | some contents =>
              rw [loadFilePlain_success B st _ p contents hd] at h ⊢
              cases h
              exact alLookup_cons_self _ _ _

theorem loadFile_ok_bytes (B : Backend) (st : FSState) (p : String) (b : Nat)
    (hinv : InvP st) (h : (loadFile B st p).1 = .ok b) :
    ∃ s, blobBytes (loadFile B st p).2.1 b = some s := by
  have hc := loadFile_ok_cached B st p b h
  have hinv2 : InvP (loadFile B st p).2.1 := InvP_loadFile B st p hinv
  have hok := hinv2.1 _ (alLookup_some_mem _ _ _ hc)
  simp only [entryRefOk] at hok
  cases hl : alLookup (loadFile B st p).2.1.heap b with
  | none => rw [hl] at hok; simp at hok
  | some info => exact ⟨info.bytes, by unfold blobBytes; rw [hl]; rfl⟩

/-! ## Lemmas about the blob lifecycle machine -/

theorem countFrees_fatal (ops : List BlobOp) : countFrees BlobRTState.fatal ops = 0 := by
  induction ops with
  | nil => rfl
  | cons op ops ih => cases op <;> simpa [countFrees, isFreeEvent, blobStep] using ih

theorem countFrees_freed (ops : List BlobOp) : countFrees BlobRTState.freed ops = 0 := by
  cases ops with
  | nil => rfl
  | cons op ops => cases op <;> simp [countFrees, isFreeEvent, blobStep, countFrees_fatal]

theorem freeEvent_step (s : BlobRTState) (op : BlobOp) (hf : isFreeEvent s op = true) :
    blobStep s op = BlobRTState.freed := by
  cases s with
  | live c =>
      cases op with
      | acquire => simp [isFreeEvent] at hf
      | release =>
          have hc : c = 1 := by simpa [isFreeEvent] using hf
          subst hc
          rfl
  | freed => cases op <;> simp [isFreeEvent] at hf
  | fatal => cases op <;> simp [isFreeEvent] at hf

theorem countFrees_le_one (ops : List BlobOp) : ∀ s, countFrees s ops ≤ 1 := by
  induction ops with
  | nil => intro s; simp [countFrees]
  | cons op ops ih =>
      intro s
      show (if isFreeEvent s op then 1 else 0) + countFrees (blobStep s op) ops ≤ 1
      by_cases hf : isFreeEvent s op = true
      · rw [if_pos hf, freeEvent_step s op hf, countFrees_freed]
      · rw [if_neg hf, Nat.zero_add]
        exact ih (blobStep s op)

theorem blobStep_freed_inv (s : BlobRTState) (op : BlobOp)
    (h : blobStep s op = BlobRTState.freed) :
    s = BlobRTState.live 1 ∧ op = BlobOp.release := by
  cases s with
  | live c =>
      cases op with
      | acquire => exact BlobRTState.noConfusion h
      | release =>
          have hred : blobStep (.live c) .release
              = if c = 0 then BlobRTState.fatal
                else if c = 1 then BlobRTState.freed
                else BlobRTState.live (c - 1) := rfl
          rw [hred] at h
          by_cases h0 : c = 0
          · rw [if_pos h0] at h
            exact BlobRTState.noConfusion h
          · rw [if_neg h0] at h
            by_cases h1 : c = 1
            · exact ⟨by rw [h1], rfl⟩
            · rw [if_neg h1] at h
              exact BlobRTState.noConfusion h
  | freed => cases op <;> exact BlobRTState.noConfusion h
  | fatal => cases op <;> exact BlobRTState.noConfusion h

/-! ## The negative-cache fast path, iterated -/

theorem loadFileN_negcached (B : Backend) (p : String) (N : Nat) :
    ∀ st : FSState,
      alLookup st.moduleCache (normalizePath st.currentSearchPath p) = some none →
      (∀ r ∈ (loadFileN B st p N).1, r = LoadResult.notFound)
      ∧ (loadFileN B st p N).2.2 = [] := by
  induction N with
  | zero =>
      intro st _
      exact ⟨fun r hr => absurd hr (List.not_mem_nil r), rfl⟩
  | succ n ih =>
      intro st h
      have hfe := loadFile_hit_sentinel B st p h
      obtain ⟨ih1, ih2⟩ := ih st h
      constructor
      · intro r hr
        simp only [loadFileN, hfe] at hr
        rcases List.mem_cons.mp hr with rfl | hm
        · rfl
        · exact ih1 r hm
      · simp only [loadFileN, hfe]
        simpa using ih2

theorem loadFile_miss_notFound (B : Backend) (st : FSState) (p : String)
    (hl : alLookup st.moduleCache (normalizePath st.currentSearchPath p) = none)
    (hd : B.disk (underlyingReadPath st.currentSearchPath p) = none) :
    loadFile B st p
      = (.notFound, negCache st (normalizePath st.currentSearchPath p),
         [.diskRead (underlyingReadPath st.currentSearchPath p)]) := by
  cases hm : strEndsWith (normalizePath st.currentSearchPath p) "-module" with
  | true =>
      have hd2 : B.disk (strDropRight (normalizePath st.currentSearchPath p) 7) = none := by
        unfold underlyingReadPath at hd
        rw [if_pos hm] at hd
        exact hd
      rw [loadFile_miss_module B st p hl hm, loadFileModule_nofile B st _ hd2]
      unfold underlyingReadPath
      rw [if_pos hm]
  | false =>
      have hd2 : B.disk p = none := by
        unfold underlyingReadPath at hd
        rw [if_neg (by rw [hm]; exact fun hh => Bool.noConfusion hh)] at hd
        exact hd
      rw [loadFile_miss_plain B st p hl hm, loadFilePlain_nofile B st _ p hd2]
      unfold underlyingReadPath
      rw [if_neg (by rw [hm]; exact fun hh => Bool.noConfusion hh)]

/-! ## Concrete storage and backends used by witnesses and counterexamples -/

/-- A small concrete storage: "w.txt", "m.src" and "dir/a.txt" exist,
everything else is missing. -/
def diskW : String → Option String := fun s =>
  if s = "w.txt" then some "hello"
  else if s = "m.src" then some "modsource"
  else if s = "dir/a.txt" then some "X" else none

/-- A concrete backend over diskW whose compile steps all succeed. -/
def BW : Backend :=
  { disk := diskW
    moduleCompileOk := fun _ _ => true
    serializeModule := fun o c => some (o ++ ":" ++ c)
    topImports := fun _ _ => []
    topCompileOk := fun _ _ => true
    getTargetCode := fun _ _ => some "spv" }

/-- Like BW, but nested module compiles report diagnostics. -/
def BCompileFail : Backend := { BW with moduleCompileOk := fun _ _ => false }

/-- Like BW, but module serialization fails. -/
def BSerFail : Backend := { BW with serializeModule := fun _ _ => none }

/-- Like BW, but the top-level module load reports diagnostics. -/
def BDiag : Backend := { BW with topCompileOk := fun _ _ => false }

/-- Like BW, but target-code extraction fails. -/
def BNoTarget : Backend := { BW with getTargetCode := fun _ _ => none }

/-- The helper state after one compile whose top-level file lives in "dir":
the search root is "dir". -/
def stDir : FSState := (compile BW initState "dir/main.slang" "src").2.1

/-- The helper state holding the output of a previous successful compile. -/
def stOld : FSState := { initState with spirv := some "old" }

/-! ## The claims -/

/-- C3: for every sequence of acquire/release calls on a MyRawBlob, the
backing storage is destroyed at most once, destruction happens exactly at
the release that takes the count from 1 to 0, and a release at count zero
runs into the assert(m_refCount != 0), a fatal invariant violation rather
than a recoverable error (the model has no error-return transition, only
the fatal state). The count is a uint32_t and thus never negative; the
zero-guard means the guarded decrement never wraps below zero, as the last
conjunct makes explicit. -/
theorem C3_refcount_safety :
    (∀ ops : List BlobOp, countFrees (.live 0) ops ≤ 1)
    ∧ (∀ (s : BlobRTState) (op : BlobOp),
        blobStep s op = BlobRTState.freed → s = BlobRTState.live 1 ∧ op = BlobOp.release)
    ∧ blobStep (.live 1) .release = BlobRTState.freed
    ∧ blobStep (.live 0) .release = BlobRTState.fatal
    ∧ ∀ c : Nat, c ≠ 0 →
        blobStep (.live c) .release
          = if c = 1 then BlobRTState.freed else BlobRTState.live (c - 1) := by
  refine ⟨fun ops => countFrees_le_one ops _, blobStep_freed_inv, rfl, rfl, ?_⟩
  intro c hc
  have hred : blobStep (.live c) .release
      = if c = 0 then BlobRTState.fatal
        else if c = 1 then BlobRTState.freed
        else BlobRTState.live (c - 1) := rfl
  rw [hred, if_neg hc]

/-- Witness for C3 at concrete inputs. -/
theorem C3_refcount_safety_witness :
    (BlobRTState.live 1 = BlobRTState.live 1 ∧ BlobOp.release = BlobOp.release)
    ∧ blobStep (.live 2) .release
        = if 2 = 1 then BlobRTState.freed else BlobRTState.live (2 - 1) :=
  ⟨C3_refcount_safety.2.1 (BlobRTState.live 1) BlobOp.release (by decide),
   C3_refcount_safety.2.2.2.2 2 (by decide)⟩

/-- C4: whenever loadFile returns success, at the moment of return the
returned blob is held by the cache map entry for the normalized path and
its reference count is at least 2 (the cache's reference plus the pointer
handed to the caller, matching the asserts at lines 338, 397 and 418);
the statement covers the cache-hit, module-compile and plain-file paths,
the only paths that return success. -/
theorem C4_two_references (B : Backend) (st : FSState) (p : String) (b : Nat)
    (hinv : invB st = true) (hok : (loadFile B st p).1 = .ok b) :
    alLookup (loadFile B st p).2.1.moduleCache (normalizePath st.currentSearchPath p)
      = some (some b)
    ∧ ∃ info, alLookup (loadFile B st p).2.1.heap b = some info ∧ 2 ≤ info.refCount := by
  refine ⟨loadFile_ok_cached B st p b hok, ?_⟩
  have hinvP := (invB_iff st).mp hinv
  cases hl : alLookup st.moduleCache (normalizePath st.currentSearchPath p) with
  | some e =>
      cases e with
      | none => rw [loadFile_hit_sentinel B st p hl] at hok; cases hok
      | some i =>
          rw [loadFile_hit_blob B st p i hl] at hok ⊢
          cases hok
          have hok2 := hinvP.1 _ (alLookup_some_mem _ _ _ hl)
          simp only [entryRefOk] at hok2
          cases hl2 : alLookup st.heap b with
          | none => rw [hl2] at hok2; simp at hok2
          | some info =>
              rw [hl2] at hok2
              refine ⟨⟨info.bytes, info.refCount + 1⟩, ?_, ?_⟩
              · show alLookup (heapAddRef st.heap b) b = _
                rw [alLookup_heapAddRef, if_pos rfl, hl2]
                rfl
              · have hnz : info.refCount ≠ 0 := by simpa using hok2
                show 2 ≤ info.refCount + 1
                omega
  | none =>
      cases hm : strEndsWith (normalizePath st.currentSearchPath p) "-module" with
      | true =>
          rw [loadFile_miss_module B st p hl hm] at hok ⊢
          cases hd : B.disk (strDropRight (normalizePath st.currentSearchPath p) 7) with
          | none => rw [loadFileModule_nofile B st _ hd] at hok; cases hok
          | some contents =>
              cases hc : B.moduleCompileOk
                  (strDropRight (normalizePath st.currentSearchPath p) 7) contents with
              | false => rw [loadFileModule_compileFail B st _ contents hd hc] at hok; cases hok
              | true =>
                  cases hs : B.serializeModule
                      (strDropRight (normalizePath st.currentSearchPath p) 7) contents with
                  | none =>
                      rw [loadFileModule_serializeFail B st _ contents hd hc hs] at hok
                      cases hok
                  | some bytes =>
                      rw [loadFileModule_success B st _ contents bytes hd hc hs] at hok ⊢
                      cases hok
                      refine ⟨⟨bytes, 2⟩, ?_, Nat.le_refl 2⟩
                      show alLookup ((st.nextId, ⟨bytes, 2⟩) :: st.heap) st.nextId = _
                      exact alLookup_cons_self _ _ _
      | false =>
          rw [loadFile_miss_plain B st p hl hm] at hok ⊢
          cases hd : B.disk p with
          | none => rw [loadFilePlain_nofile B st _ p hd] at hok; cases hok
          | some contents =>
              rw [loadFilePlain_success B st _ p contents hd] at hok ⊢
              cases hok
              refine ⟨⟨contents, 2⟩, ?_, Nat.le_refl 2⟩
              show alLookup ((st.nextId, ⟨contents, 2⟩) :: st.heap) st.nextId = _
              exact alLookup_cons_self _ _ _

/-- Witness for C4 at a concrete successful load. -/
theorem C4_two_references_witness :
    alLookup (loadFile BW initState "w.txt").2.1.moduleCache
        (normalizePath initState.currentSearchPath "w.txt") = some (some 0)
    ∧ ∃ info, alLookup (loadFile BW initState "w.txt").2.1.heap 0 = some info
        ∧ 2 ≤ info.refCount :=
  C4_two_references BW initState "w.txt" 0 (by decide) (by decide)

/-! ## Two more helper lemmas -/

theorem loadFile_cacheShape (B : Backend) (st : FSState) (p : String) :
    (loadFile B st p).2.1.moduleCache = st.moduleCache
    ∨ ∃ e, alLookup st.moduleCache (normalizePath st.currentSearchPath p) = none
        ∧ (loadFile B st p).2.1.moduleCache
            = (normalizePath st.currentSearchPath p, e) :: st.moduleCache := by
  rcases loadFile_shape B st p with hs | ⟨i, hl, hs⟩ | ⟨hl, hs⟩ | ⟨hl, bytes, hs⟩ <;> rw [hs]
  · left; rfl
  · left; rfl
  · right; exact ⟨none, hl, rfl⟩
  · right; exact ⟨some st.nextId, hl, rfl⟩

theorem compile_session_eq (B : Backend) (st : FSState) (main src : String) :
    (compile B st main src).2.2
      = makeSession { st with currentSearchPath := parentPath main } := by
  unfold compile
  cases hok : B.topCompileOk main src with
  | false => simp [hok]
  | true =>
      cases hgt : B.getTargetCode main src with
      | none => simp [hok, hgt]
      | some bytes => simp [hok, hgt]

/-- C6: for a module request whose underlying source was read successfully,
a nested-compile failure or a serialization failure makes loadFile return
SLANG_FAIL and leaves the whole state - in particular the cache map -
unchanged, so no entry (and in particular no NotFound sentinel) is recorded
for the requested path; by contrast, a failure to read the underlying
source records the NotFound sentinel under the requested normalized
path. -/
theorem C6_compile_failure_not_cached (B : Backend) (st : FSState) (p contents : String)
    (hmiss : alLookup st.moduleCache (normalizePath st.currentSearchPath p) = none)
    (hmod : strEndsWith (normalizePath st.currentSearchPath p) "-module" = true) :
    (B.disk (strDropRight (normalizePath st.currentSearchPath p) 7) = some contents →
      B.moduleCompileOk (strDropRight (normalizePath st.currentSearchPath p) 7) contents
          = false →
      (loadFile B st p).1 = .fail ∧ (loadFile B st p).2.1 = st)
    ∧ (B.disk (strDropRight (normalizePath st.currentSearchPath p) 7) = some contents →
       B.moduleCompileOk (strDropRight (normalizePath st.currentSearchPath p) 7) contents
           = true →
       B.serializeModule (strDropRight (normalizePath st.currentSearchPath p) 7) contents
           = none →
       (loadFile B st p).1 = .fail ∧ (loadFile B st p).2.1 = st)
    ∧ (B.disk (strDropRight (normalizePath st.currentSearchPath p) 7) = none →
       (loadFile B st p).1 = .notFound
       ∧ alLookup (loadFile B st p).2.1.moduleCache (normalizePath st.currentSearchPath p)
           = some none) := by
  refine ⟨?_, ?_, ?_⟩
  · intro hd hc
    rw [loadFile_miss_module B st p hmiss hmod,
        loadFileModule_compileFail B st _ contents hd hc]
    exact ⟨rfl, rfl⟩
  · intro hd hc hs
    rw [loadFile_miss_module B st p hmiss hmod,
        loadFileModule_serializeFail B st _ contents hd hc hs]
    exact ⟨rfl, rfl⟩
  · intro hd
    rw [loadFile_miss_module B st p hmiss hmod, loadFileModule_nofile B st _ hd]
    exact ⟨rfl, alLookup_cons_self _ _ _⟩

/-- Witness for C6 at concrete inputs: a compile failure and a
serialization failure leave the state untouched; a missing source records
the sentinel. -/
theorem C6_compile_failure_not_cached_witness :
    ((loadFile BCompileFail initState "m.src-module").1 = .fail
      ∧ (loadFile BCompileFail initState "m.src-module").2.1 = initState)
    ∧ ((loadFile BSerFail initState "m.src-module").1 = .fail
      ∧ (loadFile BSerFail initState "m.src-module").2.1 = initState)
    ∧ ((loadFile BW initState "missing.src-module").1 = .notFound
      ∧ alLookup (loadFile BW initState "missing.src-module").2.1.moduleCache
          (normalizePath initState.currentSearchPath "missing.src-module") = some none) :=
  ⟨(C6_compile_failure_not_cached BCompileFail initState "m.src-module" "modsource"
      (by decide) (by decide)).1 (by decide) (by decide),
   (C6_compile_failure_not_cached BSerFail initState "m.src-module" "modsource"
      (by decide) (by decide)).2.1 (by decide) (by decide) (by decide),
   (C6_compile_failure_not_cached BW initState "missing.src-module" ""
      (by decide) (by decide)).2.2 (by decide)⟩

/-- C7: cache entries are permanent and insertions happen only on a miss:
an entry present in the cache map survives, unchanged, any sequence of
loadFile and compile operations on the instance; and whenever a single
loadFile call makes an entry appear under key k, k is that call's
normalized path (whose lookup, by hypothesis, just missed). -/
theorem C7_entries_permanent (B : Backend) (st : FSState) (ops : List Op)
    (k : String) (v : Option Nat) :
    (alLookup st.moduleCache k = some v →
      alLookup (runOps B st ops).moduleCache k = some v)
    ∧ ∀ (p : String) (v2 : Option Nat), alLookup st.moduleCache k = none →
        alLookup (loadFile B st p).2.1.moduleCache k = some v2 →
        k = normalizePath st.currentSearchPath p := by
  constructor
  · intro h
    exact runOps_cache_mono B ops st k v h
  · intro p v2 hmiss hnew
    rcases loadFile_cacheShape B st p with hc | ⟨e, hl, hc⟩
    · rw [hc, hmiss] at hnew
      cases hnew
    · rw [hc] at hnew
      by_cases hk : normalizePath st.currentSearchPath p = k
      · exact hk.symm
      · rw [alLookup_cons_ne _ _ hk, hmiss] at hnew
        cases hnew

/-- Witness for C7: a cached entry survives a later module load, and the
entry inserted by a fresh request sits under that request's normalized
path. -/
theorem C7_entries_permanent_witness :
    alLookup (runOps BW (loadFile BW initState "w.txt").2.1
        [Op.load "m.src-module"]).moduleCache "w.txt" = some (some 0)
    ∧ "dir/a.txt" = normalizePath stDir.currentSearchPath "a.txt" :=
  ⟨(C7_entries_permanent BW (loadFile BW initState "w.txt").2.1 [Op.load "m.src-module"]
      "w.txt" (some 0)).1 (by decide),
   (C7_entries_permanent BW stDir [] "dir/a.txt" none).2 "a.txt" none
      (by decide) (by decide)⟩

/-- C2: for a path whose underlying storage read fails (the file does not
exist) and any N greater than or equal to 1, N consecutive loadFile calls
on that uncached path read storage at most once in total, and every one of
the N calls returns SLANG_E_NOT_FOUND. -/
theorem C2_negative_cache_idempotent (B : Backend) (st : FSState) (p : String) (N : Nat)
    (hN : 1 ≤ N)
    (hmiss : alLookup st.moduleCache (normalizePath st.currentSearchPath p) = none)
    (hdisk : B.disk (underlyingReadPath st.currentSearchPath p) = none) :
    (∀ r ∈ (loadFileN B st p N).1, r = LoadResult.notFound)
    ∧ countReads (loadFileN B st p N).2.2 ≤ 1 := by
  obtain ⟨n, rfl⟩ : ∃ n, N = n + 1 := ⟨N - 1, (Nat.succ_pred_eq_of_pos hN).symm⟩
  have hfe := loadFile_miss_notFound B st p hmiss hdisk
  have hcached : alLookup (negCache st (normalizePath st.currentSearchPath p)).moduleCache
      (normalizePath
        (negCache st (normalizePath st.currentSearchPath p)).currentSearchPath p)
      = some none := by
    show alLookup ((normalizePath st.currentSearchPath p, none) :: st.moduleCache)
        (normalizePath st.currentSearchPath p) = some none
    exact alLookup_cons_self _ _ _
  obtain ⟨hall, hevs⟩ :=
    loadFileN_negcached B p n (negCache st (normalizePath st.currentSearchPath p)) hcached
  constructor
  · intro r hr
    simp only [loadFileN, hfe] at hr
    rcases List.mem_cons.mp hr with rfl | hm
    · rfl
    · exact hall r hm
  · simp only [loadFileN, hfe]
    rw [hevs]
    simp [countReads]

/-- Witness for C2: three consecutive queries of a missing file. -/
theorem C2_negative_cache_idempotent_witness :
    (∀ r ∈ (loadFileN BW initState "nope.txt" 3).1, r = LoadResult.notFound)
    ∧ countReads (loadFileN BW initState "nope.txt" 3).2.2 ≤ 1 :=
  C2_negative_cache_idempotent BW initState "nope.txt" 3 (by decide) (by decide) (by decide)

/-- C9: every compile call sets the search root to the parent directory of
the top-level path, creates a fresh session wired to this same cache
filesystem instance (desc.fileSystem = this) with that same search path,
and removes or changes no cache map entry: every entry present before the
call is still present, unchanged, afterwards. -/
theorem C9_compile_frame (B : Backend) (st : FSState) (main src k : String)
    (v : Option Nat) (h : alLookup st.moduleCache k = some v) :
    (compile B st main src).2.1.currentSearchPath = parentPath main
    ∧ (compile B st main src).2.2.usesSelfFileSystem = true
    ∧ (compile B st main src).2.2.searchPath = parentPath main
    ∧ alLookup (compile B st main src).2.1.moduleCache k = some v := by
  refine ⟨compile_root_eq B st main src, ?_, ?_,
    compile_cache_mono B st main src k v h⟩
  · rw [compile_session_eq]
    rfl
  · rw [compile_session_eq]
    rfl

/-- Witness for C9 at a concrete state holding one cache entry. -/
theorem C9_compile_frame_witness :
    (compile BW (loadFile BW initState "w.txt").2.1 "dir/main.slang"
        "src").2.1.currentSearchPath = parentPath "dir/main.slang"
    ∧ (compile BW (loadFile BW initState "w.txt").2.1 "dir/main.slang"
        "src").2.2.usesSelfFileSystem = true
    ∧ (compile BW (loadFile BW initState "w.txt").2.1 "dir/main.slang"
        "src").2.2.searchPath = parentPath "dir/main.slang"
    ∧ alLookup (compile BW (loadFile BW initState "w.txt").2.1 "dir/main.slang"
        "src").2.1.moduleCache "w.txt" = some (some 0) :=
  C9_compile_frame BW (loadFile BW initState "w.txt").2.1 "dir/main.slang" "src"
    "w.txt" (some 0) (by decide)

/-- C10: a compile call that fails because module loading reported
diagnostics leaves the held output blob unchanged, so the previous
successful compile's bytes stay readable through get_spirv_data and
get_spirv_size; a compile call that fails at target-code extraction has
already cleared the held output to null, so get_spirv_data yields no valid
output; and only a later successful compile installs fresh output. -/
theorem C10_spirv_failure_asymmetry (B : Backend) (st : FSState) (main src : String) :
    (B.topCompileOk main src = false →
      (compile B st main src).1 = false
      ∧ get_spirv_data (compile B st main src).2.1 = get_spirv_data st
      ∧ get_spirv_size (compile B st main src).2.1 = get_spirv_size st)
    ∧ (B.topCompileOk main src = true → B.getTargetCode main src = none →
      (compile B st main src).1 = false
      ∧ get_spirv_data (compile B st main src).2.1 = none)
    ∧ ∀ bytes, B.topCompileOk main src = true → B.getTargetCode main src = some bytes →
      (compile B st main src).1 = true
      ∧ get_spirv_data (compile B st main src).2.1 = some bytes := by
  refine ⟨?_, ?_, ?_⟩
  · intro hok
    have hres : compile B st main src
        = (false, loadMany B { st with currentSearchPath := parentPath main }
            (B.topImports main src),
           makeSession { st with currentSearchPath := parentPath main }) := by
      unfold compile
      simp [hok]
    rw [hres]
    refine ⟨rfl, ?_, ?_⟩
    · show (loadMany B { st with currentSearchPath := parentPath main }
          (B.topImports main src)).spirv = get_spirv_data st
      rw [loadMany_spirv_eq]
      rfl
    · show ((loadMany B { st with currentSearchPath := parentPath main }
          (B.topImports main src)).spirv).map String.length = get_spirv_size st
      rw [loadMany_spirv_eq]
      rfl
  · intro hok hgt
    have hres : compile B st main src
        = (false, { loadMany B { st with currentSearchPath := parentPath main }
              (B.topImports main src) with spirv := none },
           makeSession { st with currentSearchPath := parentPath main }) := by
      unfold compile
      simp [hok, hgt]
    rw [hres]
    exact ⟨rfl, rfl⟩
  · intro bytes hok hgt
    have hres : compile B st main src
        = (true, { loadMany B { st with currentSearchPath := parentPath main }
              (B.topImports main src) with spirv := some bytes },
           makeSession { st with currentSearchPath := parentPath main }) := by
      unfold compile
      simp [hok, hgt]
    rw [hres]
    exact ⟨rfl, rfl⟩

/-- Witness for C10: all three compile outcomes at concrete inputs. -/
theorem C10_spirv_failure_asymmetry_witness :
    ((compile BDiag stOld "dir/m" "s").1 = false
      ∧ get_spirv_data (compile BDiag stOld "dir/m" "s").2.1 = get_spirv_data stOld
      ∧ get_spirv_size (compile BDiag stOld "dir/m" "s").2.1 = get_spirv_size stOld)
    ∧ ((compile BNoTarget stOld "dir/m" "s").1 = false
      ∧ get_spirv_data (compile BNoTarget stOld "dir/m" "s").2.1 = none)
    ∧ ((compile BW stOld "dir/m" "s").1 = true
      ∧ get_spirv_data (compile BW stOld "dir/m" "s").2.1 = some "spv") :=
  ⟨(C10_spirv_failure_asymmetry BDiag stOld "dir/m" "s").1 (by decide),
   (C10_spirv_failure_asymmetry BNoTarget stOld "dir/m" "s").2.1 (by decide) (by decide),
   (C10_spirv_failure_asymmetry BW stOld "dir/m" "s").2.2 "spv" (by decide) (by decide)⟩

/-- C5 counterexample: "foo.src-module" is uncached and ends in the
reserved suffix, yet the loadFile call triggers no nested compilation of
the stripped path "foo.src", because "foo.src" does not exist on disk: the
negative-cache branch runs instead of a compile. -/
theorem C5_counterexample :
    strEndsWith (normalizePath initState.currentSearchPath "foo.src-module") "-module" = true
    ∧ alLookup initState.moduleCache
        (normalizePath initState.currentSearchPath "foo.src-module") = none
    ∧ Event.nestedCompile "foo.src" ∉ (loadFile BW initState "foo.src-module").2.2 := by
  decide

/-- C5 amended: requests are classified purely by the "-module" suffix of
the normalized path; an uncached module-suffixed request triggers a nested
compilation of the suffix-stripped path provided the underlying source
file reads successfully (if the read fails, no compilation is triggered),
and an uncached request without the suffix never triggers a compilation or
a serialization: its only side effect is one raw read of the request
path. -/
theorem C5_suffix_classification (B : Backend) (st : FSState) (p : String)
    (hmiss : alLookup st.moduleCache (normalizePath st.currentSearchPath p) = none) :
    (strEndsWith (normalizePath st.currentSearchPath p) "-module" = true →
      (∀ c, B.disk (strDropRight (normalizePath st.currentSearchPath p) 7) = some c →
        Event.nestedCompile (strDropRight (normalizePath st.currentSearchPath p) 7)
          ∈ (loadFile B st p).2.2)
      ∧ (B.disk (strDropRight (normalizePath st.currentSearchPath p) 7) = none →
        ∀ q, Event.nestedCompile q ∉ (loadFile B st p).2.2))
    ∧ (strEndsWith (normalizePath st.currentSearchPath p) "-module" = false →
      (loadFile B st p).2.2 = [Event.diskRead p]
      ∧ (∀ q, Event.nestedCompile q ∉ (loadFile B st p).2.2)
      ∧ Event.serialization ∉ (loadFile B st p).2.2) := by
  constructor
  · intro hmod
    constructor
    · intro c hd
      rw [loadFile_miss_module B st p hmiss hmod]
      cases hc : B.moduleCompileOk
          (strDropRight (normalizePath st.currentSearchPath p) 7) c with
      | false =>
          rw [loadFileModule_compileFail B st _ c hd hc]
          simp
      | true =>
          cases hs : B.serializeModule
              (strDropRight (normalizePath st.currentSearchPath p) 7) c with
          | none =>
              rw [loadFileModule_serializeFail B st _ c hd hc hs]
              simp
          | some bytes =>
              rw [loadFileModule_success B st _ c bytes hd hc hs]
              simp
    · intro hd q
      rw [loadFile_miss_module B st p hmiss hmod, loadFileModule_nofile B st _ hd]
      simp
  · intro hplain
    have hone : (loadFile B st p).2.2 = [Event.diskRead p] := by
      rw [loadFile_miss_plain B st p hmiss hplain]
      cases hd : B.disk p with
      | none => rw [loadFilePlain_nofile B st _ p hd]
      | some c => rw [loadFilePlain_success B st _ p c hd]
    refine ⟨hone, ?_, ?_⟩
    · intro q
      rw [hone]
      simp
    · rw [hone]
      simp

/-- Witness for C5: a module request with an existing source does trigger
the nested compile of the stripped path, and a plain request performs only
one raw read. -/
theorem C5_suffix_classification_witness :
    Event.nestedCompile "m.src" ∈ (loadFile BW initState "m.src-module").2.2
    ∧ (loadFile BW initState "w.txt").2.2 = [Event.diskRead "w.txt"] :=
  ⟨((C5_suffix_classification BW initState "m.src-module" (by decide)).1 (by decide)).1
      "modsource" (by decide),
   ((C5_suffix_classification BW initState "w.txt" (by decide)).2 (by decide)).1⟩

/-- C1 counterexample: loadFile("w.txt") succeeds; a later compile call
moves the search root to "dir", after which the next loadFile("w.txt")
normalizes to the different cache key "dir/w.txt", misses, and performs a
fresh storage read - falsifying the claim that every subsequent
loadFile("w.txt") performs no file read. -/
theorem C1_counterexample :
    (loadFile BW initState "w.txt").1 = LoadResult.ok 0
    ∧ (loadFile BW (stepOp BW (loadFile BW initState "w.txt").2.1
          (Op.doCompile "dir/main.slang" "src")) "w.txt").2.2
        = [Event.diskRead "w.txt"] := by
  decide

/-- C1 amended: once loadFile(p) has returned success, every subsequent
loadFile(p) call made while the search root still normalizes p to the same
cache key (in particular, when no intervening compile changed the root)
performs no file read, nested compile or serialization - its event list is
empty - and returns the same blob, whose bytes are identical to those
returned by the first call. The proviso is forced by the counterexample:
an intervening compile from a different directory changes p's
normalization. -/
theorem C1_memoized_after_success (B : Backend) (st : FSState) (p : String) (b : Nat)
    (ops : List Op) (hinv : invB st = true)
    (hok : (loadFile B st p).1 = LoadResult.ok b)
    (hroot : normalizePath (runOps B (loadFile B st p).2.1 ops).currentSearchPath p
        = normalizePath st.currentSearchPath p) :
    (loadFile B (runOps B (loadFile B st p).2.1 ops) p).1 = LoadResult.ok b
    ∧ (loadFile B (runOps B (loadFile B st p).2.1 ops) p).2.2 = []
    ∧ ∃ s, blobBytes (loadFile B st p).2.1 b = some s
        ∧ blobBytes (loadFile B (runOps B (loadFile B st p).2.1 ops) p).2.1 b = some s := by
  have hinv0 : InvP st := (invB_iff st).mp hinv
  have hinv1 : InvP (loadFile B st p).2.1 := InvP_loadFile B st p hinv0
  have hc1 := loadFile_ok_cached B st p b hok
  obtain ⟨s, hbytes1⟩ := loadFile_ok_bytes B st p b hinv0 hok
  have hc2 : alLookup (runOps B (loadFile B st p).2.1 ops).moduleCache
      (normalizePath st.currentSearchPath p) = some (some b) :=
    runOps_cache_mono B ops _ _ _ hc1
  have hbytes2 : blobBytes (runOps B (loadFile B st p).2.1 ops) b = some s :=
    runOps_blobBytes_mono B ops _ b s hinv1 hbytes1
  have hc3 : alLookup (runOps B (loadFile B st p).2.1 ops).moduleCache
      (normalizePath (runOps B (loadFile B st p).2.1 ops).currentSearchPath p)
      = some (some b) := by
    rw [hroot]
    exact hc2
  have hfe := loadFile_hit_blob B (runOps B (loadFile B st p).2.1 ops) p b hc3
  rw [hfe]
  refine ⟨rfl, rfl, s, hbytes1, ?_⟩
  show (alLookup (heapAddRef (runOps B (loadFile B st p).2.1 ops).heap b) b).map
      BlobInfo.bytes = some s
  rw [alLookup_heapAddRef, if_pos rfl, Option.map_map]
  have hcomp : BlobInfo.bytes ∘ (fun info => (⟨info.bytes, info.refCount + 1⟩ : BlobInfo))
      = BlobInfo.bytes := rfl
  rw [hcomp]
  exact hbytes2

/-- Witness for C1 amended: a repeated load with no intervening operation. -/
theorem C1_memoized_after_success_witness :
    (loadFile BW (runOps BW (loadFile BW initState "w.txt").2.1 []) "w.txt").1
        = LoadResult.ok 0
    ∧ (loadFile BW (runOps BW (loadFile BW initState "w.txt").2.1 []) "w.txt").2.2 = []
    ∧ ∃ s, blobBytes (loadFile BW initState "w.txt").2.1 0 = some s
        ∧ blobBytes (loadFile BW (runOps BW (loadFile BW initState "w.txt").2.1 [])
            "w.txt").2.1 0 = some s :=
  C1_memoized_after_success BW initState "w.txt" 0 [] (by decide) (by decide) (by decide)

/-- C8 counterexample: with search root "dir", the request "a.txt"
normalizes to "dir/a.txt", which exists on disk with contents "X"; yet the
call reads storage at the raw request path "a.txt" (line 405 passes path,
not path_string, to load_file), finds nothing, and records NotFound under
"dir/a.txt" - so loadFile does not read the file contents at the
normalized path, contrary to the claim. -/
theorem C8_counterexample :
    stDir.currentSearchPath = "dir"
    ∧ normalizePath stDir.currentSearchPath "a.txt" = "dir/a.txt"
    ∧ BW.disk "dir/a.txt" = some "X"
    ∧ (loadFile BW stDir "a.txt").1 = LoadResult.notFound
    ∧ (loadFile BW stDir "a.txt").2.2 = [Event.diskRead "a.txt"]
    ∧ alLookup (loadFile BW stDir "a.txt").2.1.moduleCache "dir/a.txt" = some none := by
  decide

/-- C8 amended: an uncached plain-file request reads storage exactly once,
at the raw request path as passed by the backend (not at the normalized
path), and records the outcome - the NotFound sentinel on read failure, or
a fresh buffer holding the file's bytes on success - under the normalized
path (the request path resolved against the current search root). -/
theorem C8_plain_raw_read (B : Backend) (st : FSState) (p : String)
    (hmiss : alLookup st.moduleCache (normalizePath st.currentSearchPath p) = none)
    (hplain : strEndsWith (normalizePath st.currentSearchPath p) "-module" = false) :
    (loadFile B st p).2.2 = [Event.diskRead p]
    ∧ (B.disk p = none →
        (loadFile B st p).1 = LoadResult.notFound
        ∧ alLookup (loadFile B st p).2.1.moduleCache (normalizePath st.currentSearchPath p)
            = some none)
    ∧ ∀ c, B.disk p = some c →
        (loadFile B st p).1 = LoadResult.ok st.nextId
        ∧ alLookup (loadFile B st p).2.1.moduleCache (normalizePath st.currentSearchPath p)
            = some (some st.nextId)
        ∧ blobBytes (loadFile B st p).2.1 st.nextId = some c := by
  rw [loadFile_miss_plain B st p hmiss hplain]
  refine ⟨?_, ?_, ?_⟩
  · cases hd : B.disk p with
    | none => rw [loadFilePlain_nofile B st _ p hd]
    | some c => rw [loadFilePlain_success B st _ p c hd]
  · intro hd
    rw [loadFilePlain_nofile B st _ p hd]
    exact ⟨rfl, alLookup_cons_self _ _ _⟩
  · intro c hd
    rw [loadFilePlain_success B st _ p c hd]
    refine ⟨rfl, alLookup_cons_self _ _ _, ?_⟩
    show (alLookup ((st.nextId, ⟨c, 2⟩) :: st.heap) st.nextId).map BlobInfo.bytes = some c
    rw [alLookup_cons_self]
    rfl

/-- Witness for C8 amended: the missing-file outcome under a nonempty
search root, and the successful outcome with its bytes. -/
theorem C8_plain_raw_read_witness :
    ((loadFile BW stDir "a.txt").1 = LoadResult.notFound
      ∧ alLookup (loadFile BW stDir "a.txt").2.1.moduleCache
          (normalizePath stDir.currentSearchPath "a.txt") = some none)
    ∧ ((loadFile BW initState "w.txt").1 = LoadResult.ok initState.nextId
      ∧ alLookup (loadFile BW initState "w.txt").2.1.moduleCache
          (normalizePath initState.currentSearchPath "w.txt")
          = some (some initState.nextId)
      ∧ blobBytes (loadFile BW initState "w.txt").2.1 initState.nextId = some "hello") :=
  ⟨(C8_plain_raw_read BW stDir "a.txt" (by decide) (by decide)).2.1 (by decide),
   (C8_plain_raw_read BW initState "w.txt" (by decide) (by decide)).2.2 "hello" (by decide)⟩
